import Mathlib

/-!
Shallow embedding of the boot-space packing engine
(`src/utils/packingAlgorithm.ts` of the boot-space-simulator repository)
and verification of its specified properties.

Modelling conventions:
* All millimeter dimensions, coordinates and volumes are `Int` (the source
  operates on validated positive-integer millimeter values).
* Percentages are carried as integer percentage points (the source carries
  fractions `pct/100`; every value it ever stores or compares is an integer
  number of points, so the two views coincide).
* `Math.round(v * factor)` with `factor = 1 - pct/100` is the exact
  half-up rounding `(v * (100 - pct) + 50) / 100` (floor division by the
  positive constant 100); `Math.round(x) = ⌊x + 1/2⌋` in JavaScript.
* The efficiency factors (0.85 / 0.80 / 0.75 / 0.70) and the utilization
  ratio are exact rationals (`ℚ`), modelling the source's real arithmetic.
* JavaScript truthiness of an optional numeric field (`undefined` and `0`
  are falsy) is modelled by `truthy : Option Int → Bool`.
* The source's nested `for` position-search loops are modelled by
  enumerating exactly the visited grid points, in visit order, in
  `gridPositions`, and taking the first acceptable one with `List.find?`.
-/

namespace BootSim

/-- `enums.ts`: severity of a boot irregularity. -/
inductive IrregularitySeverity where
  | minor
  | moderate
  | significant
deriving DecidableEq, Repr

/-- `enums.ts`: rigidity of an item. -/
inductive ItemRigidity where
  | very_flexible
  | flexible
  | semi_rigid
  | rigid
  | completely_rigid
deriving DecidableEq, Repr

/-- `item.types.ts`: an item's dimensions in millimeters. -/
structure ItemDimensions where
  length : Int
  width : Int
  height : Int
deriving DecidableEq, Repr

/-- `item.types.ts`: a catalog item. -/
structure Item where
  name : String
  dimensions : ItemDimensions
  weight : ℚ
  rigidity : ItemRigidity
  category : String
  cabinSuitable : Bool
  compressibility : Int
  stackable : Bool
  orientationConstraints : String
  customItem : Bool
deriving DecidableEq, Repr

/-- `vehicle.types.ts`: boot measurements, opening dimensions optional. -/
structure BootMeasurements where
  length : Int
  width : Int
  height : Int
  openingWidth : Option Int
  openingHeight : Option Int
deriving DecidableEq, Repr

/-- `vehicle.types.ts`: a boot irregularity. -/
structure BootIrregularity where
  irrType : String
  severity : IrregularitySeverity
deriving DecidableEq, Repr

/-- `vehicle.types.ts`: the vehicle fields consumed by the packing engine. -/
structure Vehicle where
  bootMeasurements : BootMeasurements
  bootIrregularities : List BootIrregularity
deriving DecidableEq, Repr

/-- A 3-D position in millimeters (`{x, y, z}` in the source). -/
structure Position where
  x : Int
  y : Int
  z : Int
deriving DecidableEq, Repr

/-- `packingAlgorithm.ts`: a placed item of the output. -/
structure PackedItem where
  item : Item
  position : Position
  orientation : ItemDimensions
  compressed : Bool
  compressionApplied : Int
deriving DecidableEq, Repr

/-- `packingAlgorithm.ts`: the result record of `packItems`. -/
structure PackingResult where
  packedItems : List PackedItem
  unpackedItems : List Item
  volumeUtilization : ℚ
  bootSpaceUsed : Int
  bootSpaceAvailable : ℚ
  cabinOverflowSuggested : List Item
  warnings : List String
deriving DecidableEq, Repr

/-- `packingAlgorithm.ts`: the internal `BootSpace` record. -/
structure BootSpace where
  length : Int
  width : Int
  height : Int
  volume : Int
  efficiencyFactor : ℚ
  openingWidth : Option Int
  openingHeight : Option Int
  hasOpeningConstraints : Bool
deriving DecidableEq, Repr

/-- `packingAlgorithm.ts`: the internal `ItemWithMetrics` record
(the source spreads the item's own fields; we keep them in `toItem`). -/
structure ItemWithMetrics where
  toItem : Item
  volume : Int
  rigidityOrder : Int
  orientations : List ItemDimensions
deriving DecidableEq, Repr

/-- JavaScript truthiness of an optional numeric field:
`undefined` and `0` are falsy, every other number is truthy. -/
def truthy : Option Int → Bool
  | none => false
  | some v => v != 0

/-- The efficiency cap the `switch` in `calculateEffectiveBootSpace`
applies for one irregularity severity. -/
def severityCap : IrregularitySeverity → ℚ
  | .minor => 0.80
  | .moderate => 0.75
  | .significant => 0.70

/-- `calculateEffectiveBootSpace`: nominal dimensions, nominal volume,
irregularity-derived efficiency factor, and opening data. -/
def calculateEffectiveBootSpace (vehicle : Vehicle) : BootSpace :=
  let bm := vehicle.bootMeasurements
  let baseVolume := bm.length * bm.width * bm.height
  let efficiencyFactor :=
    vehicle.bootIrregularities.foldl
      (fun acc irr => min acc (severityCap irr.severity)) 0.85
  { length := bm.length
    width := bm.width
    height := bm.height
    volume := baseVolume
    efficiencyFactor := efficiencyFactor
    openingWidth := bm.openingWidth
    openingHeight := bm.openingHeight
    hasOpeningConstraints := truthy bm.openingWidth || truthy bm.openingHeight }

/-- `calculateItemVolume`. -/
def calculateItemVolume (d : ItemDimensions) : Int :=
  d.length * d.width * d.height

/-- `getRigidityOrder` (lower = more rigid = packed first). -/
def getRigidityOrder : ItemRigidity → Int
  | .completely_rigid => 0
  | .rigid => 1
  | .semi_rigid => 2
  | .flexible => 3
  | .very_flexible => 4

/-- `generateOrientations`: up to six axis permutations, restricted by the
item's orientation constraint; `flat_only` keeps an orientation only when
its height is at most 0.6 times the larger of the ORIGINAL length/width. -/
def generateOrientations (d : ItemDimensions) (constraints : String) :
    List ItemDimensions :=
  let l := d.length
  let w := d.width
  let h := d.height
  if constraints = "upright_only" then
    [⟨l, w, h⟩]
  else if constraints = "flat_only" then
    ([⟨l, w, h⟩, ⟨w, l, h⟩, ⟨h, w, l⟩, ⟨l, h, w⟩, ⟨w, h, l⟩, ⟨h, l, w⟩] :
        List ItemDimensions).filter
      (fun o => decide ((o.height : ℚ) ≤ (max l w : Int) * 0.6))
  else
    [⟨l, w, h⟩, ⟨w, l, h⟩, ⟨h, w, l⟩, ⟨l, h, w⟩, ⟨w, h, l⟩, ⟨h, l, w⟩]

/-- The `declared ? declared - margin : fallback` computation used for the
effective opening width/height (JS truthiness on the declared value). -/
def effectiveOpening (declared : Option Int) (fallback : Int)
    (margin : Int) : Int :=
  if truthy declared then declared.getD 0 - margin else fallback

/-- `canPassThroughOpening` with its default 20 mm clearance margin. -/
def canPassThroughOpening (o : ItemDimensions) (bs : BootSpace)
    (clearanceMargin : Int := 20) : Bool :=
  if !bs.hasOpeningConstraints then
    true
  else
    let effW := effectiveOpening bs.openingWidth bs.width clearanceMargin
    let effH := effectiveOpening bs.openingHeight bs.height clearanceMargin
    decide (o.width ≤ effW) && decide (o.height ≤ effH)

/-- `filterOrientationsForOpening`. -/
def filterOrientationsForOpening (os : List ItemDimensions)
    (bs : BootSpace) : List ItemDimensions :=
  if !bs.hasOpeningConstraints then os
  else os.filter (fun o => canPassThroughOpening o bs)

/-- `Math.round(num / 100)` for an integer `num`: exact half-up rounding
(floor division by 100, a positive constant, so `/` is a true floor). -/
def roundHundredth (num : Int) : Int :=
  (num + 50) / 100

/-- Dimensions after uniform compression by `pct` percentage points:
`Math.round(dim * (1 - pct/100))` on each axis. -/
def compressDims (d : ItemDimensions) (pct : Int) : ItemDimensions :=
  ⟨roundHundredth (d.length * (100 - pct)),
   roundHundredth (d.width * (100 - pct)),
   roundHundredth (d.height * (100 - pct))⟩

/-- The compression levels visited by
`for (let c = 5; c <= compressibility; c += 5)`. -/
def compressionLevels (compressibility : Int) : List Int :=
  if compressibility < 5 then []
  else (List.range (compressibility.toNat / 5)).map (fun i : ℕ => 5 * ((i : Int) + 1))

/-- `applyCompression`: clamp the requested percentage to the item's
compressibility; zero or negative effective compression leaves the item
unchanged.  Returns `(dimensions, compressionApplied)`. -/
def applyCompression (item : Item) (compressionNeeded : Int) :
    ItemDimensions × Int :=
  let actualCompression := min compressionNeeded item.compressibility
  if actualCompression ≤ 0 then
    (item.dimensions, 0)
  else
    (compressDims item.dimensions actualCompression, actualCompression)

/-- The opening cross-section test of `applyCompressionForOpening`. -/
def openingFit (o : ItemDimensions) (effW effH : Int) : Bool :=
  decide (o.width ≤ effW) && decide (o.height ≤ effH)

/-- `applyCompressionForOpening`: search the 5-point compression levels for
the first one where some orientation of the compressed dimensions clears
the opening (clearance margin 20 mm); returns that orientation and the
percentage applied, or `none`. -/
def applyCompressionForOpening (item : Item) (bs : BootSpace) :
    Option (ItemDimensions × Int) :=
  if !bs.hasOpeningConstraints || item.compressibility ≤ 0 then
    none
  else
    let effW := effectiveOpening bs.openingWidth bs.width 20
    let effH := effectiveOpening bs.openingHeight bs.height 20
    (compressionLevels item.compressibility).findSome? fun pct =>
      let actual := min pct item.compressibility
      let cd := compressDims item.dimensions actual
      let cos := generateOrientations cd item.orientationConstraints
      match cos.find? (fun o => openingFit o effW effH) with
      | some o => some (o, actual)
      | none => none

/-- `fitsInSpace`: the oriented box at `p` lies within the boot bounds. -/
def fitsInSpace (o : ItemDimensions) (bs : BootSpace) (p : Position) : Bool :=
  decide (p.x + o.length ≤ bs.length) &&
  decide (p.y + o.width ≤ bs.width) &&
  decide (p.z + o.height ≤ bs.height)

/-- The strict axis-aligned overlap test of `hasCollision`, between a
candidate box (`p`, `o`) and an already packed box `q`. -/
def overlapB (p : Position) (o : ItemDimensions) (q : PackedItem) : Bool :=
  decide (p.x < q.position.x + q.orientation.length) &&
  decide (p.x + o.length > q.position.x) &&
  decide (p.y < q.position.y + q.orientation.width) &&
  decide (p.y + o.width > q.position.y) &&
  decide (p.z < q.position.z + q.orientation.height) &&
  decide (p.z + o.height > q.position.z)

/-- `hasCollision`: the candidate box overlaps some already packed box. -/
def hasCollision (o : ItemDimensions) (p : Position)
    (packedItems : List PackedItem) : Bool :=
  packedItems.any (fun q => overlapB p o q)

/-- The values visited by `for (v = 0; v <= bound; v += 50)`:
`0, 50, …` up to `bound` (empty when `bound < 0`). -/
def stepsUp (bound : Int) : List Int :=
  if bound < 0 then []
  else (List.range (bound.toNat / 50 + 1)).map (fun i : ℕ => 50 * (i : Int))

/-- The values visited by `for (v = start; v >= 0; v -= 50)`:
`start, start - 50, …` down to the least non-negative value
(empty when `start < 0`). -/
def stepsDown (start : Int) : List Int :=
  if start < 0 then []
  else (List.range (start.toNat / 50 + 1)).map (fun i : ℕ => start - 50 * (i : Int))

/-- The candidate positions of `findBestPosition`, in visit order:
height (z) outermost ascending, then width (y) ascending, then length (x)
descending from the far wall toward the opening, all on a 50 mm grid. -/
def gridPositions (bs : BootSpace) (o : ItemDimensions) : List Position :=
  (stepsUp (bs.height - o.height)).flatMap fun z =>
    (stepsUp (bs.width - o.width)).flatMap fun y =>
      (stepsDown (bs.length - o.length)).map fun x => ⟨x, y, z⟩

/-- Acceptance test of `findBestPosition`: in bounds and collision-free. -/
def positionFree (bs : BootSpace) (packedItems : List PackedItem)
    (o : ItemDimensions) (p : Position) : Bool :=
  fitsInSpace o bs p && !hasCollision o p packedItems

/-- `findBestPosition`: the first acceptable grid position in scan order. -/
def findBestPosition (o : ItemDimensions) (bs : BootSpace)
    (packedItems : List PackedItem) : Option Position :=
  (gridPositions bs o).find? (positionFree bs packedItems o)

/-- The comparator of `preprocessItems` as a total boolean order:
volume descending, rigidity order ascending as tie-break. -/
def itemLE (a b : ItemWithMetrics) : Bool :=
  if a.volume != b.volume then decide (b.volume ≤ a.volume)
  else decide (a.rigidityOrder ≤ b.rigidityOrder)

/-- `preprocessItems`: attach metrics, then sort (volume-desc /
rigidity-asc).  JavaScript `Array.prototype.sort` is a stable sort; we
model it with the stable insertion sort over the same comparator. -/
def preprocessItems (items : List Item) : List ItemWithMetrics :=
  (items.map fun item =>
    { toItem := item
      volume := calculateItemVolume item.dimensions
      rigidityOrder := getRigidityOrder item.rigidity
      orientations :=
        generateOrientations item.dimensions item.orientationConstraints }
  ).insertionSort (fun a b => itemLE a b = true)

/-- The mutable loop state of `packItems`. -/
structure PackState where
  packedItems : List PackedItem
  unpackedItems : List Item
  totalVolumeUsed : Int
  itemsRejectedByOpening : Nat
  itemsRequiringCompression : Nat
deriving DecidableEq, Repr

/-- The inner `for (const orientation of …)` placement attempt: first
orientation for which `findBestPosition` succeeds, with its position. -/
def tryPlaceFirst (bs : BootSpace) (packed : List PackedItem) :
    List ItemDimensions → Option (ItemDimensions × Position)
  | [] => none
  | o :: rest =>
    match findBestPosition o bs packed with
    | some pos => some (o, pos)
    | none => tryPlaceFirst bs packed rest

/-- The space-targeted compression loop of `packItems`: first compression
level whose (opening-filtered) compressed orientations admit a position. -/
def tryCompressedPlacement (bs : BootSpace) (packed : List PackedItem)
    (it : ItemWithMetrics) : Option (ItemDimensions × Int × Position) :=
  (compressionLevels it.toItem.compressibility).findSome? fun pct =>
    let r := applyCompression it.toItem pct
    let cos := generateOrientations r.1 it.toItem.orientationConstraints
    let valid := filterOrientationsForOpening cos bs
    (tryPlaceFirst bs packed valid).map fun op => (op.1, r.2, op.2)

/-- The opening-blocked sub-path of the `packItems` loop body: when the
item is compressible, compress it for the opening and search a position
for the compressed orientation. -/
def attemptOpening (bs : BootSpace) (packed : List PackedItem)
    (it : ItemWithMetrics) : Option (ItemDimensions × Int × Position) :=
  if 0 < it.toItem.compressibility then
    match applyCompressionForOpening it.toItem bs with
    | some (dims, pct) =>
      match findBestPosition dims bs packed with
      | some pos => some (dims, pct, pos)
      | none => none
    | none => none
  else none

/-- One iteration of the `for (const itemWithMetrics of processedItems)`
loop of `packItems` over the loop state. -/
def processItem (bs : BootSpace) (st : PackState) (it : ItemWithMetrics) :
    PackState :=
  let validOrientations := filterOrientationsForOpening it.orientations bs
  if validOrientations.isEmpty && bs.hasOpeningConstraints then
    match attemptOpening bs st.packedItems it with
    | some (dims, pct, pos) =>
      { st with
        packedItems := st.packedItems ++ [⟨it.toItem, pos, dims, true, pct⟩]
        totalVolumeUsed := st.totalVolumeUsed + calculateItemVolume dims
        itemsRequiringCompression := st.itemsRequiringCompression + 1 }
    | none =>
      { st with
        unpackedItems := st.unpackedItems ++ [it.toItem]
        itemsRejectedByOpening := st.itemsRejectedByOpening + 1 }
  else
    match tryPlaceFirst bs st.packedItems validOrientations with
    | some (o, pos) =>
      { st with
        packedItems := st.packedItems ++ [⟨it.toItem, pos, o, false, 0⟩]
        totalVolumeUsed := st.totalVolumeUsed + calculateItemVolume o }
    | none =>
      if 0 < it.toItem.compressibility then
        match tryCompressedPlacement bs st.packedItems it with
        | some (o, pct, pos) =>
          { st with
            packedItems := st.packedItems ++ [⟨it.toItem, pos, o, true, pct⟩]
            totalVolumeUsed := st.totalVolumeUsed + calculateItemVolume o
            itemsRequiringCompression := st.itemsRequiringCompression + 1 }
        | none =>
          { st with unpackedItems := st.unpackedItems ++ [it.toItem] }
      else
        { st with unpackedItems := st.unpackedItems ++ [it.toItem] }

/-- The initial loop state of `packItems`. -/
def initState : PackState :=
  { packedItems := []
    unpackedItems := []
    totalVolumeUsed := 0
    itemsRejectedByOpening := 0
    itemsRequiringCompression := 0 }

/-- `openingWidth || width` and friends: JS truthiness fallback. -/
def jsOrInt (o : Option Int) (fallback : Int) : Int :=
  if truthy o then o.getD 0 else fallback

/-- The warning synthesis block at the end of `packItems`. -/
def buildWarnings (vehicle : Vehicle) (bs : BootSpace)
    (packedItems : List PackedItem) (unpackedItems : List Item)
    (itemsRejectedByOpening itemsRequiringCompression : Nat) : List String :=
  let w1 : List String :=
    if 0 < vehicle.bootIrregularities.length &&
        0 < (vehicle.bootIrregularities.filter
          (fun irr => irr.severity == .significant)).length then
      ["Boot has significant irregularities that may affect actual packing capacity"]
    else []
  let wOpen : List String :=
    if bs.hasOpeningConstraints then
      let w2 : List String :=
        if 0 < itemsRejectedByOpening then
          [s!"{itemsRejectedByOpening} item(s) could not fit through the boot opening despite fitting in the boot space"]
        else []
      let w3 : List String :=
        if 0 < itemsRequiringCompression then
          [s!"{itemsRequiringCompression} item(s) required compression to fit through the boot opening"]
        else []
      let openingArea :=
        jsOrInt bs.openingWidth bs.width * jsOrInt bs.openingHeight bs.height
      let bootCrossSection := bs.width * bs.height
      let w4 : List String :=
        if decide ((openingArea : ℚ) < (bootCrossSection : Int) * 0.6) then
          ["Boot opening dimensions significantly limit packing capacity compared to internal space"]
        else []
      let w5 : List String :=
        if 1 < packedItems.length then
          ["Consider packing order - items placed deeper in the boot may be harder to access"]
        else []
      let w6 : List String :=
        if unpackedItems.any (fun u =>
            truthy bs.openingWidth && truthy bs.openingHeight &&
            (let minDimension := min u.dimensions.width u.dimensions.height
             let maxOpening := max (bs.openingWidth.getD 0) (bs.openingHeight.getD 0)
             decide (minDimension ≤ maxOpening + 30) && decide (maxOpening < minDimension))) then
          ["Some items require tight clearance margins that may be impractical in real-world use"]
        else []
      let w7 : List String :=
        if unpackedItems.any (fun u =>
            truthy bs.openingWidth && truthy bs.openingHeight &&
            ((generateOrientations u.dimensions u.orientationConstraints).any
              (fun o =>
                decide (o.width ≤ bs.openingWidth.getD 0 - 5) &&
                decide (o.height ≤ bs.openingHeight.getD 0 - 5)))) then
          ["Some items require tight clearance margins that may be impractical in real-world use"]
        else []
      w2 ++ w3 ++ w4 ++ w5 ++ w6 ++ w7
    else []
  w1 ++ wOpen

/-- `packItems`, the packing orchestrator. -/
def packItems (vehicle : Vehicle) (items : List Item) : PackingResult :=
  let bootSpace := calculateEffectiveBootSpace vehicle
  let processedItems := preprocessItems items
  let st := processedItems.foldl (processItem bootSpace) initState
  let effectiveBootVolume : ℚ := (bootSpace.volume : Int) * bootSpace.efficiencyFactor
  let cabinOverflowSuggested := st.unpackedItems.filter (fun i => i.cabinSuitable)
  let warnings :=
    buildWarnings vehicle bootSpace st.packedItems st.unpackedItems
      st.itemsRejectedByOpening st.itemsRequiringCompression
  let volumeUtilization : ℚ :=
    ((st.totalVolumeUsed : Int) / effectiveBootVolume) * 100
  { packedItems := st.packedItems
    unpackedItems := st.unpackedItems
    volumeUtilization := min volumeUtilization 100
    bootSpaceUsed := st.totalVolumeUsed
    bootSpaceAvailable := effectiveBootVolume
    cabinOverflowSuggested := cabinOverflowSuggested
    warnings := warnings }

/-- `calculateTotalWeight`. -/
def calculateTotalWeight (packedItems : List PackedItem) : ℚ :=
  packedItems.foldl (fun total packed => total + packed.item.weight) 0

/-- Two dimension triples that are axis permutations of each other. -/
def dimsPerm (a b : ItemDimensions) : Prop :=
  [a.length, a.width, a.height].Perm [b.length, b.width, b.height]

instance (a b : ItemDimensions) : Decidable (dimsPerm a b) :=
  inferInstanceAs (Decidable (List.Perm _ _))

/-! ### Concrete fixtures used by witnesses and counterexamples -/

/-- A plain 1000 × 1000 × 500 mm boot: no irregularities, no opening data. -/
def vPlain : Vehicle :=
  { bootMeasurements :=
      { length := 1000, width := 1000, height := 500
        openingWidth := none, openingHeight := none }
    bootIrregularities := [] }

/-- A rigid 400 × 300 × 200 mm suitcase, not compressible. -/
def itemA : Item :=
  { name := "suitcase", dimensions := ⟨400, 300, 200⟩, weight := 10
    rigidity := .rigid, category := "luggage", cabinSuitable := false
    compressibility := 0, stackable := true
    orientationConstraints := "any", customItem := false }

/-- The placement `packItems vPlain [itemA]` computes for `itemA`. -/
def packedA : PackedItem :=
  { item := itemA, position := ⟨600, 0, 0⟩, orientation := ⟨400, 300, 200⟩
    compressed := false, compressionApplied := 0 }

/-- A boot whose 100 × 100 mm opening is far smaller than its interior. -/
def vOpenSmall : Vehicle :=
  { bootMeasurements :=
      { length := 500, width := 400, height := 400
        openingWidth := some 100, openingHeight := some 100 }
    bootIrregularities := [] }

/-- A rigid 90 × 90 × 90 mm cube that cannot clear an 80 × 80 mm
effective opening in any orientation. -/
def itemCube90 : Item :=
  { name := "box", dimensions := ⟨90, 90, 90⟩, weight := 2
    rigidity := .rigid, category := "equipment", cabinSuitable := false
    compressibility := 0, stackable := true
    orientationConstraints := "any", customItem := false }

/-- A flat-only cubic bag: every orientation fails the flat test. -/
def itemFlatCube : Item :=
  { name := "cube bag", dimensions := ⟨300, 300, 300⟩, weight := 3
    rigidity := .flexible, category := "shopping", cabinSuitable := true
    compressibility := 10, stackable := false
    orientationConstraints := "flat_only", customItem := false }

/-- A tiny 100 × 100 × 100 mm boot for position-search witnesses. -/
def vSmall : Vehicle :=
  { bootMeasurements :=
      { length := 100, width := 100, height := 100
        openingWidth := none, openingHeight := none }
    bootIrregularities := [] }

/-- The boot space derived from `vSmall`. -/
def bsSmall : BootSpace := calculateEffectiveBootSpace vSmall

/-- A 50 × 50 × 50 mm oriented box for position-search witnesses. -/
def dims50 : ItemDimensions := ⟨50, 50, 50⟩

/-! ### Generic list helper lemmas -/

theorem find?_eq_some_split {α : Type} (p : α → Bool) :
    ∀ {l : List α} {a : α}, l.find? p = some a →
      p a = true ∧ ∃ pre post, l = pre ++ a :: post ∧ ∀ x ∈ pre, p x = false := by
  intro l
  induction l with
  | nil => intro a h; simp at h
  | cons b t ih =>
    intro a h
    by_cases hb : p b = true
    · rw [List.find?_cons_of_pos _ hb] at h
      obtain rfl : b = a := by simpa using h
      exact ⟨hb, [], t, rfl, by simp⟩
    · rw [List.find?_cons_of_neg _ hb] at h
      obtain ⟨hpa, pre, post, rfl, hpre⟩ := ih h
      refine ⟨hpa, b :: pre, post, rfl, ?_⟩
      intro x hx
      rcases List.mem_cons.mp hx with rfl | hx
      · simpa using hb
      · exact hpre x hx

theorem find?_eq_none_forall {α : Type} {p : α → Bool} {l : List α}
    (h : l.find? p = none) : ∀ x ∈ l, p x = false := by
  intro x hx
  simpa using List.find?_eq_none.mp h x hx

/-! ### Grid scan helper lemmas -/

theorem mem_stepsUp {bound v : Int} (h : v ∈ stepsUp bound) : 0 ≤ v ∧ v ≤ bound := by
  unfold stepsUp at h
  split at h
  · simp at h
  · obtain ⟨i, hi, rfl⟩ := List.mem_map.mp h
    have := List.mem_range.mp hi
    omega

theorem mem_stepsDown {start v : Int} (h : v ∈ stepsDown start) : 0 ≤ v ∧ v ≤ start := by
  unfold stepsDown at h
  split at h
  · simp at h
  · obtain ⟨i, hi, rfl⟩ := List.mem_map.mp h
    have := List.mem_range.mp hi
    omega

theorem mem_gridPositions {bs : BootSpace} {o : ItemDimensions} {p : Position}
    (h : p ∈ gridPositions bs o) : 0 ≤ p.x ∧ 0 ≤ p.y ∧ 0 ≤ p.z := by
  unfold gridPositions at h
  obtain ⟨z, hz, hp⟩ := List.mem_flatMap.mp h
  obtain ⟨y, hy, hp⟩ := List.mem_flatMap.mp hp
  obtain ⟨x, hx, rfl⟩ := List.mem_map.mp hp
  exact ⟨(mem_stepsDown hx).1, (mem_stepsUp hy).1, (mem_stepsUp hz).1⟩

/-- Everything `findBestPosition` returns: non-negative coordinates, the
oriented box inside the nominal bounds, and no overlap with any already
packed box. -/
theorem findBestPosition_some {o : ItemDimensions} {bs : BootSpace}
    {packed : List PackedItem} {pos : Position}
    (h : findBestPosition o bs packed = some pos) :
    (0 ≤ pos.x ∧ 0 ≤ pos.y ∧ 0 ≤ pos.z) ∧
    (pos.x + o.length ≤ bs.length ∧ pos.y + o.width ≤ bs.width ∧
      pos.z + o.height ≤ bs.height) ∧
    ∀ q ∈ packed, overlapB pos o q = false := by
  unfold findBestPosition at h
  have hmem := List.mem_of_find?_eq_some h
  have hfree := List.find?_some h
  unfold positionFree at hfree
  rw [Bool.and_eq_true, Bool.not_eq_true'] at hfree
  obtain ⟨hfits, hcoll⟩ := hfree
  unfold fitsInSpace at hfits
  simp only [Bool.and_eq_true, decide_eq_true_eq] at hfits
  refine ⟨mem_gridPositions hmem, ⟨hfits.1.1, hfits.1.2, hfits.2⟩, ?_⟩
  intro q hq
  unfold hasCollision at hcoll
  simpa using (List.any_eq_false.mp hcoll) q hq

/-! ### Orientation and compression helper lemmas -/

/-- Every generated orientation is an axis permutation of the input. -/
theorem mem_generateOrientations_perm {d : ItemDimensions} {c : String}
    {o : ItemDimensions} (h : o ∈ generateOrientations d c) : dimsPerm o d := by
  obtain ⟨l, w, ht⟩ := d
  unfold generateOrientations at h
  have hsix : o ∈ ([⟨l, w, ht⟩, ⟨w, l, ht⟩, ⟨ht, w, l⟩, ⟨l, ht, w⟩, ⟨w, ht, l⟩,
      ⟨ht, l, w⟩] : List ItemDimensions) → dimsPerm o ⟨l, w, ht⟩ := by
    intro hmem
    simp only [List.mem_cons, List.not_mem_nil, or_false] at hmem
    rcases hmem with rfl | rfl | rfl | rfl | rfl | rfl
    · exact List.Perm.refl _
    · exact List.Perm.swap l w [ht]
    · exact List.Perm.trans (List.Perm.swap w ht [l])
        (List.Perm.trans (List.Perm.cons w (List.Perm.swap l ht []))
          (List.Perm.swap l w [ht]))
    · exact List.Perm.cons l (List.Perm.swap w ht [])
    · exact List.Perm.trans (List.Perm.cons w (List.Perm.swap l ht []))
        (List.Perm.swap l w [ht])
    · exact List.Perm.trans (List.Perm.swap l ht [w])
        (List.Perm.cons l (List.Perm.swap w ht []))
  split at h
  · simp only [List.mem_singleton] at h
    subst h
    exact List.Perm.refl _
  · split at h
    · exact hsix (List.mem_filter.mp h).1
    · exact hsix h

theorem compressDims_zero (d : ItemDimensions) : compressDims d 0 = d := by
  obtain ⟨l, w, h⟩ := d
  simp only [compressDims, roundHundredth, ItemDimensions.mk.injEq]
  omega

/-- Compressing positive dimensions by at most 30 % keeps them positive. -/
theorem compressDims_pos {d : ItemDimensions} {pct : Int}
    (hl : 0 < d.length) (hw : 0 < d.width) (hh : 0 < d.height)
    (hp0 : 0 ≤ pct) (hp30 : pct ≤ 30) :
    0 < (compressDims d pct).length ∧ 0 < (compressDims d pct).width ∧
      0 < (compressDims d pct).height := by
  have key : ∀ a : Int, 0 < a → 0 < roundHundredth (a * (100 - pct)) := by
    intro a ha
    have h70 : (70 : Int) ≤ a * (100 - pct) := by
      calc (70 : Int) = 1 * 70 := by norm_num
      _ ≤ a * (100 - pct) :=
        mul_le_mul ha (by omega) (by norm_num) (by omega)
    unfold roundHundredth
    omega
  exact ⟨key d.length hl, key d.width hw, key d.height hh⟩

theorem mem_compressionLevels {c pct : Int} (h : pct ∈ compressionLevels c) :
    5 ≤ pct ∧ pct ≤ c := by
  unfold compressionLevels at h
  split at h
  · simp at h
  · obtain ⟨i, hi, rfl⟩ := List.mem_map.mp h
    have := List.mem_range.mp hi
    omega

theorem applyCompression_of_level {item : Item} {pct : Int}
    (h5 : 5 ≤ pct) (hc : pct ≤ item.compressibility) :
    applyCompression item pct = (compressDims item.dimensions pct, pct) := by
  unfold applyCompression
  rw [min_eq_left hc, if_neg (by omega)]

theorem mem_filterOrientationsForOpening {os : List ItemDimensions}
    {bs : BootSpace} {o : ItemDimensions}
    (h : o ∈ filterOrientationsForOpening os bs) : o ∈ os := by
  unfold filterOrientationsForOpening at h
  split at h
  · exact h
  · exact (List.mem_filter.mp h).1

theorem tryPlaceFirst_some {bs : BootSpace} {packed : List PackedItem}
    {os : List ItemDimensions} {o : ItemDimensions} {pos : Position}
    (h : tryPlaceFirst bs packed os = some (o, pos)) :
    o ∈ os ∧ findBestPosition o bs packed = some pos := by
  induction os with
  | nil => simp [tryPlaceFirst] at h
  | cons a t ih =>
    unfold tryPlaceFirst at h
    revert h
    split
    · intro h
      obtain ⟨rfl, rfl⟩ : a = o ∧ _ = pos := by simpa using h
      refine ⟨List.mem_cons_self a t, by assumption⟩
    · intro h
      obtain ⟨hmem, hfind⟩ := ih h
      exact ⟨List.mem_cons_of_mem a hmem, hfind⟩

theorem tryCompressedPlacement_some {bs : BootSpace} {packed : List PackedItem}
    {it : ItemWithMetrics} {o : ItemDimensions} {pct : Int} {pos : Position}
    (h : tryCompressedPlacement bs packed it = some (o, pct, pos)) :
    5 ≤ pct ∧ pct ≤ it.toItem.compressibility ∧
    o ∈ generateOrientations (compressDims it.toItem.dimensions pct)
        it.toItem.orientationConstraints ∧
    findBestPosition o bs packed = some pos := by
  unfold tryCompressedPlacement at h
  obtain ⟨lvl, hlvl, hf⟩ := List.exists_of_findSome?_eq_some h
  obtain ⟨h5, hc⟩ := mem_compressionLevels hlvl
  rw [applyCompression_of_level h5 hc] at hf
  simp only [Option.map_eq_some'] at hf
  obtain ⟨⟨o', pos'⟩, hplace, heq⟩ := hf
  obtain ⟨rfl, rfl, rfl⟩ : o = o' ∧ pct = lvl ∧ pos = pos' := by
    simpa using heq.symm
  obtain ⟨hmem, hfind⟩ := tryPlaceFirst_some hplace
  exact ⟨h5, hc, mem_filterOrientationsForOpening hmem, hfind⟩

theorem applyCompressionForOpening_some {item : Item} {bs : BootSpace}
    {o : ItemDimensions} {pct : Int}
    (h : applyCompressionForOpening item bs = some (o, pct)) :
    5 ≤ pct ∧ pct ≤ item.compressibility ∧
    o ∈ generateOrientations (compressDims item.dimensions pct)
        item.orientationConstraints := by
  unfold applyCompressionForOpening at h
  split at h
  · simp at h
  · obtain ⟨lvl, hlvl, hf⟩ := List.exists_of_findSome?_eq_some h
    obtain ⟨h5, hc⟩ := mem_compressionLevels hlvl
    dsimp only at hf
    have hmin : min lvl item.compressibility = lvl := min_eq_left hc
    rw [hmin] at hf
    revert hf
    split
    · intro hf
      obtain ⟨rfl, rfl⟩ : o = _ ∧ pct = lvl := by simpa using hf.symm
      exact ⟨h5, hc, List.mem_of_find?_eq_some (by assumption)⟩
    · intro hf
      simp at hf

/-- The strict overlap test is symmetric in the two boxes. -/
theorem overlapB_symm (a b : PackedItem) :
    overlapB a.position a.orientation b = overlapB b.position b.orientation a := by
  have : (overlapB a.position a.orientation b = true) ↔
      (overlapB b.position b.orientation a = true) := by
    unfold overlapB
    simp only [Bool.and_eq_true, decide_eq_true_eq]
    constructor <;> intro h <;> omega
  cases hb : overlapB b.position b.orientation a
  · cases ha : overlapB a.position a.orientation b
    · rfl
    · rw [hb] at this; exact absurd (this.mp ha) (by simp)
  · exact this.mpr hb

/-! ### Structure of one orchestrator step -/

theorem attemptOpening_some {bs : BootSpace} {packed : List PackedItem}
    {it : ItemWithMetrics} {dims : ItemDimensions} {pct : Int} {pos : Position}
    (h : attemptOpening bs packed it = some (dims, pct, pos)) :
    applyCompressionForOpening it.toItem bs = some (dims, pct) ∧
    findBestPosition dims bs packed = some pos := by
  unfold attemptOpening at h
  split at h
  · revert h
    split
    · rename_i dims0 pct0 hcfo
      split
      · rename_i pos0 hfind
        intro h
        obtain ⟨rfl, rfl, rfl⟩ : dims0 = dims ∧ pct0 = pct ∧ pos0 = pos := by
          simpa using h
        exact ⟨hcfo, hfind⟩
      · intro h; simp at h
    · intro h; simp at h
  · simp at h

/-- One `packItems` loop iteration either appends exactly one packed entry
(with the facts that justify it) or appends the item to the unpacked list
and leaves everything else unchanged. -/
theorem processItem_shape (bs : BootSpace) (st : PackState) (it : ItemWithMetrics)
    (hit : it.orientations =
      generateOrientations it.toItem.dimensions it.toItem.orientationConstraints) :
    (∃ e : PackedItem,
      (processItem bs st it).packedItems = st.packedItems ++ [e] ∧
      (processItem bs st it).unpackedItems = st.unpackedItems ∧
      (processItem bs st it).totalVolumeUsed =
        st.totalVolumeUsed + calculateItemVolume e.orientation ∧
      e.item = it.toItem ∧
      findBestPosition e.orientation bs st.packedItems = some e.position ∧
      (e.compressed = false → e.compressionApplied = 0) ∧
      (e.compressed = true →
        0 < e.compressionApplied ∧
        e.compressionApplied ≤ it.toItem.compressibility) ∧
      dimsPerm e.orientation (compressDims it.toItem.dimensions e.compressionApplied)) ∨
    ((processItem bs st it).packedItems = st.packedItems ∧
      (processItem bs st it).unpackedItems = st.unpackedItems ++ [it.toItem] ∧
      (processItem bs st it).totalVolumeUsed = st.totalVolumeUsed) := by
  unfold processItem
  simp only []
  split
  · -- opening-blocked branch
    split
    · -- attempt succeeded
      rename_i dims pct pos heq
      obtain ⟨hcfo, hfind⟩ := attemptOpening_some heq
      obtain ⟨h5, hc, hmem⟩ := applyCompressionForOpening_some hcfo
      refine Or.inl ⟨⟨it.toItem, pos, dims, true, pct⟩, rfl, rfl, rfl, rfl,
        hfind, by simp, fun _ => ⟨show (0 : Int) < pct by omega,
          show pct ≤ it.toItem.compressibility from hc⟩,
        mem_generateOrientations_perm hmem⟩
    · -- attempt failed: rejected by the opening
      exact Or.inr ⟨rfl, rfl, rfl⟩
  · -- normal branch
    split
    · -- packed uncompressed
      rename_i o pos hplace
      obtain ⟨hmem, hfind⟩ := tryPlaceFirst_some hplace
      have hperm : dimsPerm o (compressDims it.toItem.dimensions 0) := by
        rw [compressDims_zero]
        exact mem_generateOrientations_perm
          (hit ▸ mem_filterOrientationsForOpening hmem)
      exact Or.inl ⟨⟨it.toItem, pos, o, false, 0⟩, rfl, rfl, rfl, rfl, hfind,
        fun _ => rfl, by simp, hperm⟩
    · -- uncompressed placement failed
      split
      · -- compressible: space-targeted compression
        split
        · rename_i o pct pos hcomp
          obtain ⟨h5, hc, hmem, hfind⟩ := tryCompressedPlacement_some hcomp
          refine Or.inl ⟨⟨it.toItem, pos, o, true, pct⟩, rfl, rfl, rfl, rfl, hfind,
            by simp, fun _ => ⟨show (0 : Int) < pct by omega,
              show pct ≤ it.toItem.compressibility from hc⟩,
            mem_generateOrientations_perm hmem⟩
        · exact Or.inr ⟨rfl, rfl, rfl⟩
      · exact Or.inr ⟨rfl, rfl, rfl⟩

/-! ### Loop invariants of the orchestrator -/

/-- Per-entry invariant: inside the nominal bounds, compression recorded
consistently, and the occupied orientation is an axis permutation of the
item's dimensions compressed by the recorded percentage. -/
def entryOK (bs : BootSpace) (e : PackedItem) : Prop :=
  0 ≤ e.position.x ∧ 0 ≤ e.position.y ∧ 0 ≤ e.position.z ∧
  e.position.x + e.orientation.length ≤ bs.length ∧
  e.position.y + e.orientation.width ≤ bs.width ∧
  e.position.z + e.orientation.height ≤ bs.height ∧
  (e.compressed = false → e.compressionApplied = 0) ∧
  (e.compressed = true → 0 < e.compressionApplied ∧
    e.compressionApplied ≤ e.item.compressibility) ∧
  dimsPerm e.orientation (compressDims e.item.dimensions e.compressionApplied)

/-- Loop-state invariant: pairwise non-overlap, per-entry facts, and the
volume accumulator equals the sum of packed orientation volumes. -/
def stateOK (bs : BootSpace) (st : PackState) : Prop :=
  st.packedItems.Pairwise
    (fun a b => overlapB a.position a.orientation b = false) ∧
  (∀ e ∈ st.packedItems, entryOK bs e) ∧
  st.totalVolumeUsed =
    (st.packedItems.map (fun e => calculateItemVolume e.orientation)).sum

theorem stateOK_processItem {bs : BootSpace} {st : PackState}
    {it : ItemWithMetrics}
    (hit : it.orientations =
      generateOrientations it.toItem.dimensions it.toItem.orientationConstraints)
    (h : stateOK bs st) : stateOK bs (processItem bs st it) := by
  obtain ⟨hpw, hok, hvol⟩ := h
  rcases processItem_shape bs st it hit with
    ⟨e, hp, hu, hv, hitem, hfind, hc0, hc1, hperm⟩ | ⟨hp, hu, hv⟩
  · obtain ⟨hnn, hbounds, hover⟩ := findBestPosition_some hfind
    refine ⟨?_, ?_, ?_⟩
    · rw [hp, List.pairwise_append]
      refine ⟨hpw, by simp, ?_⟩
      intro a ha b hb
      have hbe : b = e := by simpa using hb
      rw [hbe, overlapB_symm a e]
      exact hover a ha
    · intro f hf
      rw [hp] at hf
      rcases List.mem_append.mp hf with hf | hf
      · exact hok f hf
      · obtain rfl : f = e := by simpa using hf
        refine ⟨hnn.1, hnn.2.1, hnn.2.2, hbounds.1, hbounds.2.1, hbounds.2.2,
          hc0, ?_, ?_⟩
        · rw [hitem]; exact hc1
        · rw [hitem]; exact hperm
    · rw [hp, hv, hvol]
      simp
  · exact ⟨hp ▸ hpw, fun f hf => hok f (hp ▸ hf), by rw [hp, hv, hvol]⟩

theorem stateOK_foldl (bs : BootSpace) :
    ∀ (l : List ItemWithMetrics) (st : PackState),
    (∀ it ∈ l, it.orientations =
      generateOrientations it.toItem.dimensions it.toItem.orientationConstraints) →
    stateOK bs st → stateOK bs (l.foldl (processItem bs) st)
  | [], _, _, h => h
  | it :: rest, st, hl, h => by
    simp only [List.foldl_cons]
    exact stateOK_foldl bs rest _ (fun x hx => hl x (List.mem_cons_of_mem _ hx))
      (stateOK_processItem (hl it (List.mem_cons_self _ _)) h)

/-- Item conservation across the fold: the final packed and unpacked lists
together hold exactly the initial ones plus the processed items. -/
theorem foldl_perm (bs : BootSpace) :
    ∀ (l : List ItemWithMetrics) (st : PackState),
    (∀ it ∈ l, it.orientations =
      generateOrientations it.toItem.dimensions it.toItem.orientationConstraints) →
    (((l.foldl (processItem bs) st).packedItems.map (fun e => e.item)) ++
        (l.foldl (processItem bs) st).unpackedItems).Perm
      ((st.packedItems.map (fun e => e.item) ++ st.unpackedItems) ++
        l.map (fun it => it.toItem))
  | [], st, _ => by simp
  | it :: rest, st, hl => by
    simp only [List.foldl_cons, List.map_cons]
    have ih := foldl_perm bs rest (processItem bs st it)
      (fun x hx => hl x (List.mem_cons_of_mem _ hx))
    have hstep : (((processItem bs st it).packedItems.map (fun e => e.item)) ++
        (processItem bs st it).unpackedItems).Perm
        ((st.packedItems.map (fun e => e.item) ++ st.unpackedItems) ++
          [it.toItem]) := by
      rcases processItem_shape bs st it (hl it (List.mem_cons_self _ _)) with
        ⟨e, hp, hu, _, hitem, _, _, _, _⟩ | ⟨hp, hu, _⟩
      · rw [hp, hu, List.map_append]
        simp only [List.map_cons, List.map_nil, hitem]
        rw [List.append_assoc, List.append_assoc]
        exact List.Perm.append_left _ List.perm_append_comm
      · rw [hp, hu, List.append_assoc]
    refine ih.trans ?_
    refine (hstep.append_right (rest.map (fun x => x.toItem))).trans ?_
    rw [List.append_assoc]
    rfl

theorem processItem_unpacked_extend (bs : BootSpace) (st : PackState)
    (it : ItemWithMetrics) :
    ∃ t, (processItem bs st it).unpackedItems = st.unpackedItems ++ t := by
  unfold processItem
  simp only []
  split
  · split
    · exact ⟨[], by simp⟩
    · exact ⟨[it.toItem], rfl⟩
  · split
    · exact ⟨[], by simp⟩
    · split
      · split
        · exact ⟨[], by simp⟩
        · exact ⟨[it.toItem], rfl⟩
      · exact ⟨[it.toItem], rfl⟩

theorem foldl_unpacked_mono (bs : BootSpace) :
    ∀ (l : List ItemWithMetrics) (st : PackState) {x : Item},
      x ∈ st.unpackedItems → x ∈ (l.foldl (processItem bs) st).unpackedItems
  | [], _, _, hx => hx
  | it :: rest, st, x, hx => by
    simp only [List.foldl_cons]
    apply foldl_unpacked_mono bs rest
    obtain ⟨t, ht⟩ := processItem_unpacked_extend bs st it
    rw [ht]
    exact List.mem_append_left t hx

/-- An item whose step always rejects it ends up unpacked. -/
theorem foldl_unpacked_of_reject (bs : BootSpace) {it : ItemWithMetrics}
    (hrej : ∀ st, (processItem bs st it).unpackedItems =
      st.unpackedItems ++ [it.toItem]) :
    ∀ (l : List ItemWithMetrics) (st : PackState), it ∈ l →
      it.toItem ∈ (l.foldl (processItem bs) st).unpackedItems
  | [], _, hmem => by simp at hmem
  | a :: rest, st, hmem => by
    simp only [List.foldl_cons]
    rcases List.mem_cons.mp hmem with rfl | hmem
    · apply foldl_unpacked_mono
      rw [hrej st]
      simp
    · exact foldl_unpacked_of_reject bs hrej rest _ hmem

/-! ### Preprocessing and `packItems` projections -/

theorem preprocessItems_mem {items : List Item} {it : ItemWithMetrics}
    (h : it ∈ preprocessItems items) :
    it.toItem ∈ items ∧
    it.orientations =
      generateOrientations it.toItem.dimensions it.toItem.orientationConstraints := by
  unfold preprocessItems at h
  have h2 := (List.perm_insertionSort (fun a b => itemLE a b = true) _).mem_iff.mp h
  obtain ⟨i, hi, rfl⟩ := List.mem_map.mp h2
  exact ⟨hi, rfl⟩

theorem mem_preprocessItems {items : List Item} {i : Item} (h : i ∈ items) :
    ({ toItem := i
       volume := calculateItemVolume i.dimensions
       rigidityOrder := getRigidityOrder i.rigidity
       orientations :=
        generateOrientations i.dimensions i.orientationConstraints } :
      ItemWithMetrics) ∈ preprocessItems items := by
  unfold preprocessItems
  rw [(List.perm_insertionSort (fun a b => itemLE a b = true) _).mem_iff]
  exact List.mem_map.mpr ⟨i, h, rfl⟩

theorem preprocessItems_toItem_perm (items : List Item) :
    ((preprocessItems items).map (fun it => it.toItem)).Perm items := by
  unfold preprocessItems
  refine ((List.perm_insertionSort (fun a b => itemLE a b = true) _).map _).trans ?_
  rw [List.map_map]
  show (items.map fun i => i).Perm items
  rw [List.map_id']

/-- The projections of `packItems` in terms of the final fold state. -/
theorem packItems_state (v : Vehicle) (items : List Item) :
    (packItems v items).packedItems =
      ((preprocessItems items).foldl
        (processItem (calculateEffectiveBootSpace v)) initState).packedItems ∧
    (packItems v items).unpackedItems =
      ((preprocessItems items).foldl
        (processItem (calculateEffectiveBootSpace v)) initState).unpackedItems ∧
    (packItems v items).bootSpaceUsed =
      ((preprocessItems items).foldl
        (processItem (calculateEffectiveBootSpace v)) initState).totalVolumeUsed ∧
    (packItems v items).volumeUtilization =
      min ((((((preprocessItems items).foldl
          (processItem (calculateEffectiveBootSpace v)) initState).totalVolumeUsed :
            Int) : ℚ) /
        (((calculateEffectiveBootSpace v).volume : Int) *
          (calculateEffectiveBootSpace v).efficiencyFactor)) * 100) 100 :=
  ⟨rfl, rfl, rfl, rfl⟩

/-! ### Aggregate facts about `packItems` -/

theorem packItems_stateOK (v : Vehicle) (items : List Item) :
    stateOK (calculateEffectiveBootSpace v)
      ((preprocessItems items).foldl
        (processItem (calculateEffectiveBootSpace v)) initState) :=
  stateOK_foldl _ _ _ (fun _ hit => (preprocessItems_mem hit).2)
    ⟨List.Pairwise.nil, by simp [initState], rfl⟩

theorem packItems_perm (v : Vehicle) (items : List Item) :
    (((packItems v items).packedItems.map (fun e => e.item)) ++
      (packItems v items).unpackedItems).Perm items := by
  have h := foldl_perm (calculateEffectiveBootSpace v) (preprocessItems items)
    initState (fun _ hit => (preprocessItems_mem hit).2)
  simp only [initState, List.map_nil, List.nil_append, List.append_nil] at h
  exact h.trans (preprocessItems_toItem_perm items)

theorem packItems_packed_item_mem {v : Vehicle} {items : List Item}
    {e : PackedItem} (h : e ∈ (packItems v items).packedItems) :
    e.item ∈ items := by
  refine (packItems_perm v items).mem_iff.mp ?_
  exact List.mem_append_left _ (List.mem_map.mpr ⟨e, h, rfl⟩)

/-- The efficiency factor always stays between the worst cap and the base. -/
theorem efficiencyFactor_ge (v : Vehicle) :
    (0.70 : ℚ) ≤ (calculateEffectiveBootSpace v).efficiencyFactor := by
  show (0.70 : ℚ) ≤ v.bootIrregularities.foldl
    (fun acc irr => min acc (severityCap irr.severity)) 0.85
  have key : ∀ (l : List BootIrregularity) (acc : ℚ), 0.70 ≤ acc →
      0.70 ≤ l.foldl (fun acc irr => min acc (severityCap irr.severity)) acc := by
    intro l
    induction l with
    | nil => exact fun acc h => h
    | cons a t ih =>
      intro acc h
      refine ih _ (le_min h ?_)
      cases ha : a.severity <;> norm_num [severityCap]
  exact key _ _ (by norm_num)

/-- Packed orientations of validated items occupy positive volume. -/
theorem packItems_orientation_volume_pos {v : Vehicle} {items : List Item}
    (hi : ∀ i ∈ items, 0 < i.dimensions.length ∧ 0 < i.dimensions.width ∧
      0 < i.dimensions.height ∧ 0 ≤ i.compressibility ∧ i.compressibility ≤ 30) :
    ∀ e ∈ (packItems v items).packedItems,
      0 < calculateItemVolume e.orientation := by
  intro e he
  obtain ⟨_, _, _, _, _, _, hc0, hc1, hperm⟩ :=
    (packItems_stateOK v items).2.1 e he
  obtain ⟨hdl, hdw, hdh, hcmp0, hcmp30⟩ := hi e.item (packItems_packed_item_mem he)
  have hpct : 0 ≤ e.compressionApplied ∧ e.compressionApplied ≤ 30 := by
    cases hcpr : e.compressed
    · rw [hc0 hcpr]; omega
    · obtain ⟨h1, h2⟩ := hc1 hcpr; omega
  have hcd := compressDims_pos hdl hdw hdh hpct.1 hpct.2
  have hmem : ∀ x ∈ [e.orientation.length, e.orientation.width,
      e.orientation.height], 0 < x := by
    intro x hx
    have hx2 := hperm.mem_iff.mp hx
    simp only [List.mem_cons, List.not_mem_nil, or_false] at hx2
    rcases hx2 with rfl | rfl | rfl
    · exact hcd.1
    · exact hcd.2.1
    · exact hcd.2.2
  have h1 := hmem e.orientation.length (by simp)
  have h2 := hmem e.orientation.width (by simp)
  have h3 := hmem e.orientation.height (by simp)
  exact mul_pos (mul_pos h1 h2) h3

/-! ### The claims -/

/-- C1: in every `PackingResult` returned by `packItems`, any two distinct
entries of `packedItems` have non-overlapping axis-aligned boxes, the
overlap test being strict on all three axes (face/edge/corner contact
counts as non-overlapping); the orchestrator preserves this with every
placement. -/
theorem packItems_nonoverlap (v : Vehicle) (items : List Item) :
    (packItems v items).packedItems.Pairwise
      (fun a b => overlapB a.position a.orientation b = false) :=
  (packItems_stateOK v items).1

/-- C2: every entry of `packedItems` lies fully inside the nominal boot
box: coordinates are non-negative and position plus orientation extent is
bounded by the nominal boot dimension on each axis (the efficiency factor
plays no role in this geometric test). -/
theorem packItems_containment (v : Vehicle) (items : List Item) :
    ∀ e ∈ (packItems v items).packedItems,
      0 ≤ e.position.x ∧ 0 ≤ e.position.y ∧ 0 ≤ e.position.z ∧
      e.position.x + e.orientation.length ≤ v.bootMeasurements.length ∧
      e.position.y + e.orientation.width ≤ v.bootMeasurements.width ∧
      e.position.z + e.orientation.height ≤ v.bootMeasurements.height := by
  intro e he
  obtain ⟨h1, h2, h3, h4, h5, h6, _, _, _⟩ :=
    (packItems_stateOK v items).2.1 e he
  exact ⟨h1, h2, h3, h4, h5, h6⟩

/-- Witness for C2 at a concrete boot and item. -/
theorem packItems_containment_witness :
    0 ≤ packedA.position.x ∧ 0 ≤ packedA.position.y ∧ 0 ≤ packedA.position.z ∧
    packedA.position.x + packedA.orientation.length ≤
      vPlain.bootMeasurements.length ∧
    packedA.position.y + packedA.orientation.width ≤
      vPlain.bootMeasurements.width ∧
    packedA.position.z + packedA.orientation.height ≤
      vPlain.bootMeasurements.height :=
  packItems_containment vPlain [itemA] packedA (by decide)

/-- C3: `packItems` conserves items — the packed and unpacked lists
partition the input: their lengths add up, and the multiset of underlying
items equals the input item multiset (no duplication, no loss). -/
theorem packItems_conservation (v : Vehicle) (items : List Item) :
    (packItems v items).packedItems.length +
      (packItems v items).unpackedItems.length = items.length ∧
    (((packItems v items).packedItems.map (fun e => e.item)) ++
      (packItems v items).unpackedItems).Perm items := by
  have hperm := packItems_perm v items
  refine ⟨?_, hperm⟩
  have hlen := hperm.length_eq
  simpa using hlen

/-- C5: every packed entry records `0 ≤ compressionApplied ≤ its item's
compressibility`, `compressionApplied = 0` whenever `compressed = false`,
and its occupied orientation is an axis permutation of the item's
dimensions uniformly scaled by `1 - pct/100` and rounded to the nearest
integer millimeter. -/
theorem packItems_compression_bound (v : Vehicle) (items : List Item)
    (hi : ∀ i ∈ items, 0 ≤ i.compressibility) :
    ∀ e ∈ (packItems v items).packedItems,
      0 ≤ e.compressionApplied ∧
      e.compressionApplied ≤ e.item.compressibility ∧
      (e.compressed = false → e.compressionApplied = 0) ∧
      dimsPerm e.orientation
        (compressDims e.item.dimensions e.compressionApplied) := by
  intro e he
  obtain ⟨_, _, _, _, _, _, hc0, hc1, hperm⟩ :=
    (packItems_stateOK v items).2.1 e he
  have hcomp := hi e.item (packItems_packed_item_mem he)
  cases hcpr : e.compressed
  · have h0 := hc0 hcpr
    exact ⟨by omega, by omega, fun _ => h0, hperm⟩
  · obtain ⟨h1, h2⟩ := hc1 hcpr
    exact ⟨by omega, h2, fun hfalse => Bool.noConfusion hfalse, hperm⟩

/-- Witness for C5 at a concrete boot and item. -/
theorem packItems_compression_bound_witness :
    (∀ i ∈ [itemA], 0 ≤ i.compressibility) ∧
    (0 ≤ packedA.compressionApplied ∧
      packedA.compressionApplied ≤ packedA.item.compressibility ∧
      (packedA.compressed = false → packedA.compressionApplied = 0) ∧
      dimsPerm packedA.orientation
        (compressDims packedA.item.dimensions packedA.compressionApplied)) :=
  ⟨by decide, packItems_compression_bound vPlain [itemA] (by decide)
    packedA (by decide)⟩

/-- C6: for validated inputs, `volumeUtilization` equals
`min(100, 100 · Σ packed orientation volumes / (nominal volume ·
efficiencyFactor))`, lies in `[0, 100]`, and is `0` iff nothing packed. -/
theorem packItems_utilization (v : Vehicle) (items : List Item)
    (hv : 0 < v.bootMeasurements.length ∧ 0 < v.bootMeasurements.width ∧
      0 < v.bootMeasurements.height)
    (hi : ∀ i ∈ items, 0 < i.dimensions.length ∧ 0 < i.dimensions.width ∧
      0 < i.dimensions.height ∧ 0 ≤ i.compressibility ∧
      i.compressibility ≤ 30) :
    (packItems v items).volumeUtilization =
      min 100 (100 * ((((packItems v items).packedItems.map
          (fun e => calculateItemVolume e.orientation)).sum : Int) : ℚ) /
        (((v.bootMeasurements.length * v.bootMeasurements.width *
            v.bootMeasurements.height : Int) : ℚ) *
          (calculateEffectiveBootSpace v).efficiencyFactor)) ∧
    0 ≤ (packItems v items).volumeUtilization ∧
    (packItems v items).volumeUtilization ≤ 100 ∧
    ((packItems v items).volumeUtilization = 0 ↔
      (packItems v items).packedItems = []) := by
  have hvolEq := (packItems_stateOK v items).2.2
  have hutil := (packItems_state v items).2.2.2
  have hpk : ((preprocessItems items).foldl
      (processItem (calculateEffectiveBootSpace v)) initState).packedItems =
      (packItems v items).packedItems := rfl
  rw [hpk] at hvolEq
  set S : ℚ := ((((packItems v items).packedItems.map
    (fun e => calculateItemVolume e.orientation)).sum : Int) : ℚ) with hS
  have hE : (0 : ℚ) < (((v.bootMeasurements.length *
      v.bootMeasurements.width * v.bootMeasurements.height : Int) : ℚ) *
      (calculateEffectiveBootSpace v).efficiencyFactor) := by
    refine mul_pos ?_ (lt_of_lt_of_le (by norm_num) (efficiencyFactor_ge v))
    exact_mod_cast mul_pos (mul_pos hv.1 hv.2.1) hv.2.2
  set E : ℚ := (((v.bootMeasurements.length * v.bootMeasurements.width *
      v.bootMeasurements.height : Int) : ℚ) *
      (calculateEffectiveBootSpace v).efficiencyFactor) with hEdef
  have hutil2 : (packItems v items).volumeUtilization = min (S / E * 100) 100 := by
    rw [hutil, hvolEq]
    rfl
  have hSnn : 0 ≤ S := by
    rw [hS]
    have : (0 : Int) ≤ ((packItems v items).packedItems.map
        (fun e => calculateItemVolume e.orientation)).sum := by
      refine List.sum_nonneg fun x hx => ?_
      obtain ⟨e, he, rfl⟩ := List.mem_map.mp hx
      exact le_of_lt (packItems_orientation_volume_pos hi e he)
    exact_mod_cast this
  have heqForm : min (S / E * 100) 100 = min 100 (100 * S / E) := by
    rw [min_comm]
    congr 1
    ring
  refine ⟨by rw [hutil2, heqForm], ?_, ?_, ?_⟩
  · rw [hutil2]
    exact le_min (by positivity) (by norm_num)
  · rw [hutil2]
    exact min_le_right _ _
  · rw [hutil2]
    constructor
    · intro h0
      by_contra hne
      obtain ⟨e, rest, hcons⟩ := List.exists_cons_of_ne_nil hne
      have hSpos : 0 < S := by
        rw [hS]
        have : (0 : Int) < ((packItems v items).packedItems.map
            (fun e => calculateItemVolume e.orientation)).sum := by
          refine List.sum_pos _ (fun x hx => ?_) (by simp [hcons])
          obtain ⟨f, hf, rfl⟩ := List.mem_map.mp hx
          exact packItems_orientation_volume_pos hi f hf
        exact_mod_cast this
      have hlt : (0 : ℚ) < min (S / E * 100) 100 :=
        lt_min (by positivity) (by norm_num)
      exact hlt.ne' h0
    · intro hnil
      rw [hS, hnil]
      simp

/-- Witness for C6 at a concrete boot and item. -/
theorem packItems_utilization_witness :
    ((0 : Int) < vPlain.bootMeasurements.length ∧
      0 < vPlain.bootMeasurements.width ∧
      0 < vPlain.bootMeasurements.height) ∧
    ((packItems vPlain [itemA]).volumeUtilization =
      min 100 (100 * ((((packItems vPlain [itemA]).packedItems.map
          (fun e => calculateItemVolume e.orientation)).sum : Int) : ℚ) /
        (((vPlain.bootMeasurements.length * vPlain.bootMeasurements.width *
            vPlain.bootMeasurements.height : Int) : ℚ) *
          (calculateEffectiveBootSpace vPlain).efficiencyFactor)) ∧
      0 ≤ (packItems vPlain [itemA]).volumeUtilization ∧
      (packItems vPlain [itemA]).volumeUtilization ≤ 100 ∧
      ((packItems vPlain [itemA]).volumeUtilization = 0 ↔
        (packItems vPlain [itemA]).packedItems = [])) :=
  ⟨by decide, packItems_utilization vPlain [itemA] (by decide) (by decide)⟩

/-! ### The scan order of the position search -/

theorem stepsUp_head {bound : Int} (h : 0 ≤ bound) :
    stepsUp bound = 0 :: (List.range (bound.toNat / 50)).map
      (fun i : ℕ => 50 * ((i : Int) + 1)) := by
  unfold stepsUp
  rw [if_neg (by omega), List.range_succ_eq_map, List.map_cons, List.map_map]
  congr 1

theorem stepsDown_head {start : Int} (h : 0 ≤ start) :
    stepsDown start = start :: (List.range (start.toNat / 50)).map
      (fun i : ℕ => start - 50 * ((i : Int) + 1)) := by
  unfold stepsDown
  rw [if_neg (by omega), List.range_succ_eq_map, List.map_cons, List.map_map]
  congr 1
  norm_num

/-- When the box fits at all, the very first scanned position is the
far-wall floor corner `(length - orientation.length, 0, 0)`. -/
theorem gridPositions_head {bs : BootSpace} {o : ItemDimensions}
    (hz : 0 ≤ bs.height - o.height) (hy : 0 ≤ bs.width - o.width)
    (hx : 0 ≤ bs.length - o.length) :
    ∃ t, gridPositions bs o = (⟨bs.length - o.length, 0, 0⟩ : Position) :: t := by
  unfold gridPositions
  rw [stepsUp_head hz, stepsUp_head hy, stepsDown_head hx,
    List.flatMap_cons, List.flatMap_cons, List.map_cons]
  exact ⟨_, by rw [List.cons_append, List.cons_append]⟩

/-- C7: the position search scans the fixed 50 mm grid in the order given
by `gridPositions` — height outermost, then width, then length descending
from the far wall — and returns exactly the first scanned position that is
inside the nominal bounds and collision-free, or `none` when every scanned
position fails. -/
theorem findBestPosition_scan (o : ItemDimensions) (bs : BootSpace)
    (packed : List PackedItem) :
    (∀ p, findBestPosition o bs packed = some p →
      positionFree bs packed o p = true ∧
      ∃ pre post, gridPositions bs o = pre ++ p :: post ∧
        ∀ q ∈ pre, positionFree bs packed o q = false) ∧
    (findBestPosition o bs packed = none →
      ∀ q ∈ gridPositions bs o, positionFree bs packed o q = false) := by
  constructor
  · intro p hp
    unfold findBestPosition at hp
    obtain ⟨hfree, pre, post, hsplit, hpre⟩ := find?_eq_some_split _ hp
    exact ⟨hfree, pre, post, hsplit, hpre⟩
  · intro hnone
    unfold findBestPosition at hnone
    exact find?_eq_none_forall hnone

/-- Witness for C7 at a concrete scan where a position is found. -/
theorem findBestPosition_scan_witness :
    positionFree bsSmall [] dims50 ⟨50, 0, 0⟩ = true :=
  ((findBestPosition_scan dims50 bsSmall []).1 ⟨50, 0, 0⟩ (by decide)).1

/-- C10: with no boxes packed yet, any position the search returns is the
far-wall floor corner `(boot length - orientation length, 0, 0)`. -/
theorem findBestPosition_first_corner (o : ItemDimensions) (bs : BootSpace)
    (p : Position) (h : findBestPosition o bs [] = some p) :
    p = ⟨bs.length - o.length, 0, 0⟩ := by
  have hmem : p ∈ gridPositions bs o := by
    unfold findBestPosition at h
    exact List.mem_of_find?_eq_some h
  have hb : 0 ≤ bs.height - o.height ∧ 0 ≤ bs.width - o.width ∧
      0 ≤ bs.length - o.length := by
    unfold gridPositions at hmem
    obtain ⟨z, hz, hp2⟩ := List.mem_flatMap.mp hmem
    obtain ⟨y, hy, hp2⟩ := List.mem_flatMap.mp hp2
    obtain ⟨x, hx, rfl⟩ := List.mem_map.mp hp2
    obtain ⟨hz0, hzb⟩ := mem_stepsUp hz
    obtain ⟨hy0, hyb⟩ := mem_stepsUp hy
    obtain ⟨hx0, hxb⟩ := mem_stepsDown hx
    exact ⟨by omega, by omega, by omega⟩
  have hfree : positionFree bs [] o ⟨bs.length - o.length, 0, 0⟩ = true := by
    simp only [positionFree, fitsInSpace, hasCollision, List.any_nil,
      Bool.not_false, Bool.and_true, Bool.and_eq_true, decide_eq_true_eq]
    refine ⟨⟨by omega, by omega⟩, by omega⟩
  obtain ⟨t, hgrid⟩ := gridPositions_head hb.1 hb.2.1 hb.2.2
  unfold findBestPosition at h
  rw [hgrid, List.find?_cons_of_pos _ hfree] at h
  simpa using h.symm

/-- Witness for C10 at a concrete boot and box. -/
theorem findBestPosition_first_corner_witness :
    (⟨50, 0, 0⟩ : Position) = ⟨bsSmall.length - dims50.length, 0, 0⟩ :=
  findBestPosition_first_corner dims50 bsSmall ⟨50, 0, 0⟩ (by decide)

/-! ### Rejection paths -/

theorem attemptOpening_none {bs : BootSpace} {packed : List PackedItem}
    {it : ItemWithMetrics}
    (hcfo : applyCompressionForOpening it.toItem bs = none) :
    attemptOpening bs packed it = none := by
  unfold attemptOpening
  split
  · rw [hcfo]
  · rfl

theorem filterOrientations_nil (bs : BootSpace) :
    filterOrientationsForOpening [] bs = [] := by
  unfold filterOrientationsForOpening
  split <;> rfl

/-- An item with no opening-clearing orientation and no successful
opening compression is pushed to the unpacked list unchanged. -/
theorem processItem_openingBlocked (bs : BootSpace) (st : PackState)
    (it : ItemWithMetrics)
    (hempty : filterOrientationsForOpening it.orientations bs = [])
    (hopen : bs.hasOpeningConstraints = true)
    (hcfo : applyCompressionForOpening it.toItem bs = none) :
    processItem bs st it =
      { st with
        unpackedItems := st.unpackedItems ++ [it.toItem]
        itemsRejectedByOpening := st.itemsRejectedByOpening + 1 } := by
  unfold processItem
  simp only []
  rw [hempty, hopen, attemptOpening_none hcfo]
  simp

/-- `applyCompressionForOpening` fails when every compression level leaves
the item with no admissible orientation at all. -/
theorem applyCompressionForOpening_none_of_gen {item : Item} {bs : BootSpace}
    (hgen : ∀ pct, 5 ≤ pct → pct ≤ item.compressibility →
      generateOrientations (compressDims item.dimensions pct)
        item.orientationConstraints = []) :
    applyCompressionForOpening item bs = none := by
  unfold applyCompressionForOpening
  split
  · rfl
  · refine List.findSome?_eq_none_iff.mpr fun lvl hlvl => ?_
    obtain ⟨h5, hc⟩ := mem_compressionLevels hlvl
    dsimp only
    rw [min_eq_left hc, hgen lvl h5 hc]
    rfl

theorem tryCompressedPlacement_none_of_gen {bs : BootSpace}
    {packed : List PackedItem} {it : ItemWithMetrics}
    (hgen : ∀ pct, 5 ≤ pct → pct ≤ it.toItem.compressibility →
      generateOrientations (compressDims it.toItem.dimensions pct)
        it.toItem.orientationConstraints = []) :
    tryCompressedPlacement bs packed it = none := by
  unfold tryCompressedPlacement
  refine List.findSome?_eq_none_iff.mpr fun lvl hlvl => ?_
  obtain ⟨h5, hc⟩ := mem_compressionLevels hlvl
  dsimp only
  rw [applyCompression_of_level h5 hc]
  dsimp only
  rw [hgen lvl h5 hc, filterOrientations_nil]
  rfl

/-- An item whose orientation list is empty at every compression level is
always pushed to the unpacked list. -/
theorem processItem_noOrientations (bs : BootSpace) (st : PackState)
    (it : ItemWithMetrics)
    (h0 : it.orientations = [])
    (hgen : ∀ pct, 5 ≤ pct → pct ≤ it.toItem.compressibility →
      generateOrientations (compressDims it.toItem.dimensions pct)
        it.toItem.orientationConstraints = []) :
    (processItem bs st it).unpackedItems = st.unpackedItems ++ [it.toItem] := by
  unfold processItem
  simp only [h0, filterOrientations_nil]
  split
  · rw [attemptOpening_none (applyCompressionForOpening_none_of_gen hgen)]
  · rw [show tryPlaceFirst bs st.packedItems ([] : List ItemDimensions) = none
      from rfl]
    dsimp only
    split
    · rw [tryCompressedPlacement_none_of_gen hgen]
    · rfl

/-- The flat-only filter rejects every orientation of a positive cube. -/
theorem generateOrientations_cube_flat {d : ItemDimensions}
    (h1 : d.width = d.length) (h2 : d.height = d.length)
    (hpos : 0 < d.length) :
    generateOrientations d "flat_only" = [] := by
  unfold generateOrientations
  rw [if_neg (by decide), if_pos rfl]
  refine List.filter_eq_nil_iff.mpr fun o ho => ?_
  have hh : o.height = d.length := by
    simp only [List.mem_cons, List.not_mem_nil, or_false] at ho
    rcases ho with rfl | rfl | rfl | rfl | rfl | rfl <;> simp [h1, h2]
  rw [hh, h1, max_self]
  simp only [decide_eq_true_eq]
  intro habs
  have hs : (1 : ℚ) ≤ (d.length : Int) := by exact_mod_cast hpos
  norm_num at habs
  linarith

theorem canPassThroughOpening_false {o : ItemDimensions} {bs : BootSpace}
    (hopen : bs.hasOpeningConstraints = true)
    (hw : effectiveOpening bs.openingWidth bs.width 20 < o.width) :
    canPassThroughOpening o bs = false := by
  unfold canPassThroughOpening
  rw [if_neg (by simp [hopen])]
  dsimp only
  have hdec : decide (o.width ≤ effectiveOpening bs.openingWidth bs.width 20) =
      false := by
    simp only [decide_eq_false_iff_not, not_le]
    omega
  rw [hdec, Bool.false_and]

/-- C9: a `flat_only` item whose three dimensions are equal (a cube) is
always unpacked: the flat filter rejects all permutations of equal
dimensions, and uniform compression with rounding keeps the dimensions
equal, so the orientation list stays empty at every compression level. -/
theorem packItems_flat_cube_unpacked (v : Vehicle) (items : List Item)
    (i : Item) (hmem : i ∈ items)
    (hflat : i.orientationConstraints = "flat_only")
    (h1 : i.dimensions.width = i.dimensions.length)
    (h2 : i.dimensions.height = i.dimensions.length)
    (hpos : 0 < i.dimensions.length)
    (hc0 : 0 ≤ i.compressibility) (hc30 : i.compressibility ≤ 30) :
    i ∈ (packItems v items).unpackedItems := by
  have hgen : ∀ pct, 5 ≤ pct → pct ≤ i.compressibility →
      generateOrientations (compressDims i.dimensions pct)
        i.orientationConstraints = [] := by
    intro pct h5 hc
    rw [hflat]
    refine generateOrientations_cube_flat ?_ ?_ ?_
    · show roundHundredth (i.dimensions.width * (100 - pct)) =
        roundHundredth (i.dimensions.length * (100 - pct))
      rw [h1]
    · show roundHundredth (i.dimensions.height * (100 - pct)) =
        roundHundredth (i.dimensions.length * (100 - pct))
      rw [h2]
    · exact (compressDims_pos hpos (by rw [h1]; exact hpos)
        (by rw [h2]; exact hpos) (by omega) (by omega)).1
  have h0 : generateOrientations i.dimensions i.orientationConstraints = [] := by
    rw [hflat]
    exact generateOrientations_cube_flat h1 h2 hpos
  exact foldl_unpacked_of_reject (calculateEffectiveBootSpace v)
    (fun st => processItem_noOrientations _ st _ h0 hgen)
    (preprocessItems items) initState (mem_preprocessItems hmem)

/-- Witness for C9 at a concrete cubic flat-only item. -/
theorem packItems_flat_cube_unpacked_witness :
    (itemFlatCube ∈ [itemFlatCube] ∧
      itemFlatCube.orientationConstraints = "flat_only" ∧
      itemFlatCube.dimensions.width = itemFlatCube.dimensions.length ∧
      itemFlatCube.dimensions.height = itemFlatCube.dimensions.length ∧
      0 < itemFlatCube.dimensions.length ∧
      0 ≤ itemFlatCube.compressibility ∧ itemFlatCube.compressibility ≤ 30) ∧
    itemFlatCube ∈ (packItems vPlain [itemFlatCube]).unpackedItems :=
  ⟨by decide, packItems_flat_cube_unpacked vPlain [itemFlatCube] itemFlatCube
    (by decide) (by decide) (by decide) (by decide) (by decide) (by decide)
    (by decide)⟩

/-- C4: when both opening dimensions are declared and every orientation of
an item exceeds the 20 mm-margin opening cross-section in both width and
height, and no 5-point compression level produces an orientation that
clears it, the item always ends up unpacked. -/
theorem packItems_opening_gating (v : Vehicle) (items : List Item) (i : Item)
    (ow oh : Int) (hmem : i ∈ items)
    (how : v.bootMeasurements.openingWidth = some ow)
    (hoh : v.bootMeasurements.openingHeight = some oh)
    (howpos : 0 < ow) (hohpos : 0 < oh)
    (horr : ∀ o ∈ generateOrientations i.dimensions i.orientationConstraints,
      ow - 20 < o.width ∧ oh - 20 < o.height)
    (hcomp : ∀ pct ∈ compressionLevels i.compressibility,
      ∀ o ∈ generateOrientations (compressDims i.dimensions pct)
          i.orientationConstraints,
        ¬(o.width ≤ ow - 20 ∧ o.height ≤ oh - 20)) :
    i ∈ (packItems v items).unpackedItems := by
  have hbsow : (calculateEffectiveBootSpace v).openingWidth = some ow := how
  have hbsoh : (calculateEffectiveBootSpace v).openingHeight = some oh := hoh
  have hopen : (calculateEffectiveBootSpace v).hasOpeningConstraints = true := by
    show (truthy v.bootMeasurements.openingWidth ||
      truthy v.bootMeasurements.openingHeight) = true
    rw [how]
    have ht : truthy (some ow) = true := by
      simp only [truthy, bne_iff_ne, ne_eq]
      omega
    rw [ht, Bool.true_or]
  have heffW : effectiveOpening (calculateEffectiveBootSpace v).openingWidth
      (calculateEffectiveBootSpace v).width 20 = ow - 20 := by
    rw [hbsow]
    unfold effectiveOpening
    rw [if_pos (by simp only [truthy, bne_iff_ne, ne_eq]; omega)]
    rfl
  have heffH : effectiveOpening (calculateEffectiveBootSpace v).openingHeight
      (calculateEffectiveBootSpace v).height 20 = oh - 20 := by
    rw [hbsoh]
    unfold effectiveOpening
    rw [if_pos (by simp only [truthy, bne_iff_ne, ne_eq]; omega)]
    rfl
  have hempty : filterOrientationsForOpening
      (generateOrientations i.dimensions i.orientationConstraints)
      (calculateEffectiveBootSpace v) = [] := by
    unfold filterOrientationsForOpening
    rw [if_neg (by simp [hopen])]
    refine List.filter_eq_nil_iff.mpr fun o ho => ?_
    rw [canPassThroughOpening_false hopen (by rw [heffW]; exact (horr o ho).1)]
    simp
  have hcfo : applyCompressionForOpening i (calculateEffectiveBootSpace v) =
      none := by
    unfold applyCompressionForOpening
    split
    · rfl
    · refine List.findSome?_eq_none_iff.mpr fun lvl hlvl => ?_
      obtain ⟨h5, hc⟩ := mem_compressionLevels hlvl
      have hfind : List.find? (fun o => openingFit o (ow - 20) (oh - 20))
          (generateOrientations (compressDims i.dimensions lvl)
            i.orientationConstraints) = none := by
        refine List.find?_eq_none.mpr fun o ho => ?_
        unfold openingFit
        simp only [Bool.and_eq_true, decide_eq_true_eq, not_and]
        intro hA hB
        exact hcomp lvl hlvl o ho ⟨hA, hB⟩
      dsimp only
      rw [min_eq_left hc, heffW, heffH, hfind]
  have hrej : ∀ st, (processItem (calculateEffectiveBootSpace v) st
      { toItem := i
        volume := calculateItemVolume i.dimensions
        rigidityOrder := getRigidityOrder i.rigidity
        orientations :=
          generateOrientations i.dimensions i.orientationConstraints }).unpackedItems =
      st.unpackedItems ++ [i] := by
    intro st
    rw [processItem_openingBlocked _ st _ hempty hopen hcfo]
  exact foldl_unpacked_of_reject (calculateEffectiveBootSpace v) hrej
    (preprocessItems items) initState (mem_preprocessItems hmem)

/-- Witness for C4 at a concrete narrow-opening boot and rigid cube. -/
theorem packItems_opening_gating_witness :
    (itemCube90 ∈ [itemCube90] ∧
      vOpenSmall.bootMeasurements.openingWidth = some 100 ∧
      vOpenSmall.bootMeasurements.openingHeight = some 100 ∧
      (0 : Int) < 100 ∧
      (∀ o ∈ generateOrientations itemCube90.dimensions
          itemCube90.orientationConstraints,
        (100 : Int) - 20 < o.width ∧ (100 : Int) - 20 < o.height) ∧
      (∀ pct ∈ compressionLevels itemCube90.compressibility,
        ∀ o ∈ generateOrientations (compressDims itemCube90.dimensions pct)
            itemCube90.orientationConstraints,
          ¬(o.width ≤ 100 - 20 ∧ o.height ≤ 100 - 20))) ∧
    itemCube90 ∈ (packItems vOpenSmall [itemCube90]).unpackedItems :=
  ⟨by decide, packItems_opening_gating vOpenSmall [itemCube90] itemCube90
    100 100 (by decide) (by decide) (by decide) (by decide) (by decide)
    (by decide) (by decide)⟩

/-- C8 counterexample: for a plain valid boot and an empty item list the
code returns the all-empty result with an EMPTY warning list — there is no
explanatory empty-input warning, contrary to the claim. -/
theorem packItems_empty_input_counterexample :
    (packItems vPlain []).warnings = [] ∧
    (packItems vPlain []).packedItems = [] ∧
    (packItems vPlain []).unpackedItems = [] := by
  decide

/-- C8 (amended): packing an empty item list against a valid boot never
fails and returns `packedItems = []`, `unpackedItems = []`,
`volumeUtilization = 0`, `bootSpaceUsed = 0`; no empty-input warning is
emitted (`warnings` can be empty). -/
theorem packItems_empty_input (v : Vehicle)
    (_hv : 0 < v.bootMeasurements.length ∧ 0 < v.bootMeasurements.width ∧
      0 < v.bootMeasurements.height) :
    (packItems v []).packedItems = [] ∧
    (packItems v []).unpackedItems = [] ∧
    (packItems v []).volumeUtilization = 0 ∧
    (packItems v []).bootSpaceUsed = 0 := by
  refine ⟨rfl, rfl, ?_, rfl⟩
  show min ((((0 : Int) : ℚ) /
    (((calculateEffectiveBootSpace v).volume : Int) *
      (calculateEffectiveBootSpace v).efficiencyFactor)) * 100) 100 = 0
  rw [show (((0 : Int) : ℚ)) = 0 from by norm_num, zero_div, zero_mul]
  exact min_eq_left (by norm_num)

/-- Witness for the amended C8 at a concrete valid boot. -/
theorem packItems_empty_input_witness :
    ((0 : Int) < vPlain.bootMeasurements.length ∧
      0 < vPlain.bootMeasurements.width ∧
      0 < vPlain.bootMeasurements.height) ∧
    ((packItems vPlain []).packedItems = [] ∧
      (packItems vPlain []).unpackedItems = [] ∧
      (packItems vPlain []).volumeUtilization = 0 ∧
      (packItems vPlain []).bootSpaceUsed = 0) :=
  ⟨by decide, packItems_empty_input vPlain (by decide)⟩

end BootSim
